import Mathlib

/-!
Verification of the Google-Maps scraper pipeline (scraper.mjs, batchScraper.mjs,
index.mjs and their unnamed variants): a shallow embedding in Lean 4 of the
retry executor, the feed scroller, the per-item scrape loop, the CSV writing
steps and the batch orchestrator, with theorems settling the behavioural
properties stated for them.
-/

/-! ## Records

A merged record pushed by `scrapeRestaurants` in scraper.mjs is the object
`{ ...restaurantInfo, placeId }` where `restaurantInfo` is
`{ name, phone, website, address }`; the field order below matches the JS
object key order (it determines `Object.keys` / `Object.values` order for
CSV serialization). -/

structure Restaurant where
  name : String
  phone : String
  website : String
  address : String
  placeId : String
deriving Repr, DecidableEq

/-- The dedup key of batchScraper.mjs getUniqueRestaurants:
the template literal backtick-name-dash-address-backtick lowercased, that is
lowercase(name concat dash concat address). -/
def restaurantKey (r : Restaurant) : String :=
  (r.name ++ "-" ++ r.address).toLower

/-- Loop body of getUniqueRestaurants (batchScraper.mjs): `filter` with a
`seen` set, keeping a record iff its key was not seen before and adding the
key to the set. `seen` is modelled as the list of keys added so far. -/
def getUniqueRestaurantsAux (seen : List String) : List Restaurant → List Restaurant
  | [] => []
  | r :: rs =>
    if restaurantKey r ∈ seen then getUniqueRestaurantsAux seen rs
    else r :: getUniqueRestaurantsAux (restaurantKey r :: seen) rs

/-- getUniqueRestaurants (batchScraper.mjs): starts with an empty seen set. -/
def getUniqueRestaurants (allRestaurants : List Restaurant) : List Restaurant :=
  getUniqueRestaurantsAux [] allRestaurants

/-! Helper lemmas about the dedup pass. -/

theorem toLower_append (s t : String) : (s ++ t).toLower = s.toLower ++ t.toLower := by
  apply String.ext
  simp [String.toLower, String.map_eq, String.data_append]

theorem getUniqueRestaurantsAux_sublist (seen : List String) (l : List Restaurant) :
    (getUniqueRestaurantsAux seen l).Sublist l := by
  induction l generalizing seen with
  | nil => simp [getUniqueRestaurantsAux]
  | cons r rs ih =>
    rw [getUniqueRestaurantsAux]
    split
    · exact (ih seen).cons r
    · exact (ih _).cons₂ r

theorem getUniqueRestaurantsAux_keys (l : List Restaurant) (seen : List String) :
    ((getUniqueRestaurantsAux seen l).map restaurantKey).Nodup ∧
    ∀ k ∈ (getUniqueRestaurantsAux seen l).map restaurantKey, k ∉ seen := by
  induction l generalizing seen with
  | nil => simp [getUniqueRestaurantsAux]
  | cons r rs ih =>
    rw [getUniqueRestaurantsAux]
    split
    · exact ih seen
    · rename_i hnot
      obtain ⟨hnd, hdisj⟩ := ih (restaurantKey r :: seen)
      refine ⟨?_, ?_⟩
      · rw [List.map_cons, List.nodup_cons]
        exact ⟨fun hmem => (hdisj _ hmem) (List.mem_cons_self _ _), hnd⟩
      · intro k hk hkseen
        rw [List.map_cons, List.mem_cons] at hk
        rcases hk with hk | hk
        · exact hnot (hk ▸ hkseen)
        · exact (hdisj k hk) (List.mem_cons_of_mem _ hkseen)

theorem getUniqueRestaurantsAux_covers (l : List Restaurant) (seen : List String)
    (r : Restaurant) (hr : r ∈ l) :
    restaurantKey r ∈ seen ∨
      ∃ s ∈ getUniqueRestaurantsAux seen l, restaurantKey s = restaurantKey r := by
  induction l generalizing seen with
  | nil => cases hr
  | cons a rs ih =>
    rw [getUniqueRestaurantsAux]
    rcases List.mem_cons.mp hr with rfl | hr
    · by_cases ha : restaurantKey r ∈ seen
      · simp [ha]
      · right
        rw [if_neg ha]
        exact ⟨r, List.mem_cons_self _ _, rfl⟩
    · by_cases ha : restaurantKey a ∈ seen
      · rw [if_pos ha]
        exact ih seen hr
      · rw [if_neg ha]
        rcases ih (restaurantKey a :: seen) hr with hseen | ⟨s, hs, hkey⟩
        · rcases List.mem_cons.mp hseen with heq | hseen
          · exact Or.inr ⟨a, List.mem_cons_self _ _, heq.symm⟩
          · exact Or.inl hseen
        · exact Or.inr ⟨s, List.mem_cons_of_mem _ hs, hkey⟩

theorem getUniqueRestaurantsAux_find (l : List Restaurant) (seen : List String)
    (s : Restaurant) (hs : s ∈ getUniqueRestaurantsAux seen l) :
    restaurantKey s ∉ seen ∧
      l.find? (fun t => restaurantKey t == restaurantKey s) = some s := by
  induction l generalizing seen with
  | nil => cases hs
  | cons a rs ih =>
    rw [getUniqueRestaurantsAux] at hs
    by_cases ha : restaurantKey a ∈ seen
    · rw [if_pos ha] at hs
      obtain ⟨hnot, hfind⟩ := ih seen hs
      refine ⟨hnot, ?_⟩
      rw [List.find?_cons]
      have hne : (restaurantKey a == restaurantKey s) = false := by
        simp only [beq_eq_false_iff_ne, ne_eq]
        intro heq
        exact hnot (heq ▸ ha)
      rw [hne]
      exact hfind
    · rw [if_neg ha] at hs
      rcases List.mem_cons.mp hs with rfl | hs
      · refine ⟨ha, ?_⟩
        rw [List.find?_cons]
        simp
      · obtain ⟨hnot, hfind⟩ := ih (restaurantKey a :: seen) hs
        have hne : restaurantKey s ≠ restaurantKey a := by
          intro heq
          exact hnot (heq ▸ List.mem_cons_self _ _)
        refine ⟨fun hmem => hnot (List.mem_cons_of_mem _ hmem), ?_⟩
        rw [List.find?_cons]
        have : (restaurantKey a == restaurantKey s) = false := by
          simp only [beq_eq_false_iff_ne, ne_eq]
          exact fun h => hne h.symm
        rw [this]
        exact hfind

theorem getUniqueRestaurantsAux_fixed (l : List Restaurant) (seen : List String)
    (hnd : (l.map restaurantKey).Nodup)
    (hdisj : ∀ k ∈ l.map restaurantKey, k ∉ seen) :
    getUniqueRestaurantsAux seen l = l := by
  induction l generalizing seen with
  | nil => rfl
  | cons r rs ih =>
    rw [List.map_cons, List.nodup_cons] at hnd
    have hr : restaurantKey r ∉ seen :=
      hdisj _ (by rw [List.map_cons]; exact List.mem_cons_self _ _)
    rw [getUniqueRestaurantsAux, if_neg hr]
    congr 1
    refine ih _ hnd.2 ?_
    intro k hk hmem
    rcases List.mem_cons.mp hmem with rfl | hmem
    · exact hnd.1 hk
    · exact hdisj k (by rw [List.map_cons]; exact List.mem_cons_of_mem _ hk) hmem

/-- C1: getUniqueRestaurants keeps exactly the first record for each key
lowercase(name-address) in input order: the output is an order-preserving
subsequence of the input, its keys are pairwise distinct (every later record
with an already seen key is dropped), every input key is still represented,
each survivor is the first input record carrying its key, and records with
equal lowercase name and equal lowercase address have equal keys, so of two
such records only the first-encountered survives. -/
theorem getUniqueRestaurants_first_occurrence_wins (l : List Restaurant) :
    (getUniqueRestaurants l).Sublist l ∧
    ((getUniqueRestaurants l).map restaurantKey).Nodup ∧
    (∀ r ∈ l, ∃ s ∈ getUniqueRestaurants l, restaurantKey s = restaurantKey r) ∧
    (∀ s ∈ getUniqueRestaurants l,
      l.find? (fun t => restaurantKey t == restaurantKey s) = some s) ∧
    (∀ a b : Restaurant, a.name.toLower = b.name.toLower →
      a.address.toLower = b.address.toLower → restaurantKey a = restaurantKey b) := by
  refine ⟨getUniqueRestaurantsAux_sublist [] l, (getUniqueRestaurantsAux_keys l []).1,
    ?_, ?_, ?_⟩
  · intro r hr
    rcases getUniqueRestaurantsAux_covers l [] r hr with hmem | hex
    · cases hmem
    · exact hex
  · intro s hs
    exact (getUniqueRestaurantsAux_find l [] s hs).2
  · intro a b hname haddr
    unfold restaurantKey
    rw [toLower_append, toLower_append, toLower_append, toLower_append,
      hname, haddr]

/-- C7: the dedup pass is idempotent, so re-running the merge reduction on an
already merged record list changes nothing. -/
theorem getUniqueRestaurants_idempotent (l : List Restaurant) :
    getUniqueRestaurants (getUniqueRestaurants l) = getUniqueRestaurants l := by
  unfold getUniqueRestaurants
  exact getUniqueRestaurantsAux_fixed _ []
    (getUniqueRestaurantsAux_keys l []).1 (by simp)

/-- C9: the dedup key is not injective over (name, address) pairs: the records
(name a-b, address c) and (name a, address b-c) differ in both fields yet share
the key a-b-c, so getUniqueRestaurants drops the second one. -/
theorem getUniqueRestaurants_key_not_injective :
    (Restaurant.mk "a-b" "p1" "w1" "c" "id1").name ≠
      (Restaurant.mk "a" "p2" "w2" "b-c" "id2").name ∧
    (Restaurant.mk "a-b" "p1" "w1" "c" "id1").address ≠
      (Restaurant.mk "a" "p2" "w2" "b-c" "id2").address ∧
    restaurantKey (Restaurant.mk "a-b" "p1" "w1" "c" "id1") =
      restaurantKey (Restaurant.mk "a" "p2" "w2" "b-c" "id2") ∧
    getUniqueRestaurants [Restaurant.mk "a-b" "p1" "w1" "c" "id1",
        Restaurant.mk "a" "p2" "w2" "b-c" "id2"] =
      [Restaurant.mk "a-b" "p1" "w1" "c" "id1"] := by
  refine ⟨by decide, by decide, ?_⟩
  have hk : restaurantKey (Restaurant.mk "a-b" "p1" "w1" "c" "id1") =
      restaurantKey (Restaurant.mk "a" "p2" "w2" "b-c" "id2") := by
    simp only [restaurantKey, String.toLower, String.map_eq]
    apply String.ext
    decide
  refine ⟨hk, ?_⟩
  rw [getUniqueRestaurants, getUniqueRestaurantsAux, if_neg (List.not_mem_nil _)]
  rw [getUniqueRestaurantsAux, if_pos (List.mem_singleton.mpr hk.symm),
    getUniqueRestaurantsAux]

/-! ## RetryExecutor

executeWithRetry (scraper.mjs): a while loop running until success or until
retryCount reaches maxRetries; on failure it increments retryCount and waits
1000 ms. The action is modelled by a function from the 0-based attempt index
to a Bool (true = the awaited func resolved, false = it threw). The trace
records the returned flag, the attempt indices the action was invoked with
(in order) and the milliseconds of each delay performed. -/

structure RetryTrace where
  success : Bool
  calls : List Nat
  delays : List Nat
deriving Repr, DecidableEq

/-- One spin of the while loop of executeWithRetry. The fuel argument equals
maxRetries minus retryCount, so fuel zero is exactly the loop condition
retryCount < maxRetries turning false. -/
def executeWithRetryGo (func : Nat → Bool) : Nat → Nat → RetryTrace
  | 0, _ => ⟨false, [], []⟩
  | fuel + 1, retryCount =>
    if func retryCount then ⟨true, [retryCount], []⟩
    else
      let rest := executeWithRetryGo func fuel (retryCount + 1)
      ⟨rest.success, retryCount :: rest.calls, 1000 :: rest.delays⟩

/-- executeWithRetry (scraper.mjs) with its default of 3 retries: the loop
starts at retryCount zero. -/
def executeWithRetry (func : Nat → Bool) (retries : Nat := 3) : RetryTrace :=
  executeWithRetryGo func retries 0

theorem executeWithRetryGo_all_fail (func : Nat → Bool) (fuel rc : Nat)
    (h : ∀ i, rc ≤ i → i < rc + fuel → func i = false) :
    executeWithRetryGo func fuel rc = ⟨false, List.range' rc fuel, List.replicate fuel 1000⟩ := by
  induction fuel generalizing rc with
  | zero => rfl
  | succ fuel ih =>
    rw [executeWithRetryGo, if_neg]
    · rw [ih (rc + 1) fun i h1 h2 => h i (Nat.le_of_succ_le h1) (by omega)]
      rw [List.range'_succ, List.replicate_succ]
    · rw [h rc (Nat.le_refl rc) (by omega)]
      simp

theorem executeWithRetryGo_succeeds (func : Nat → Bool) (fuel rc k : Nat)
    (hk : k < fuel)
    (hfail : ∀ i, rc ≤ i → i < rc + k → func i = false)
    (hsucc : func (rc + k) = true) :
    executeWithRetryGo func fuel rc =
      ⟨true, List.range' rc (k + 1), List.replicate k 1000⟩ := by
  induction fuel generalizing rc k with
  | zero => omega
  | succ fuel ih =>
    rw [executeWithRetryGo]
    cases k with
    | zero =>
      rw [if_pos (by simpa using hsucc)]
      rfl
    | succ k =>
      rw [if_neg]
      · rw [ih (rc + 1) k (by omega) (fun i h1 h2 => hfail i (Nat.le_of_succ_le h1) (by omega))
          (by rw [show rc + 1 + k = rc + (k + 1) by omega]; exact hsucc)]
        simp [List.range'_succ, List.replicate_succ]
      · rw [hfail rc (Nat.le_refl rc) (by omega)]
        simp

/-- C2: executeWithRetry invokes a totally failing action exactly `retries`
times (with 0-based attempt indices 0..retries-1), delays 1000 ms after each
failure and returns false; for an action failing exactly on the first k
attempts with k < retries, it invokes it exactly k+1 times, delays 1000 ms
after each of the k failures, stops immediately on the success and returns
true. -/
theorem executeWithRetry_attempt_bound (func : Nat → Bool) (retries k : Nat) :
    ((∀ i, i < retries → func i = false) →
      executeWithRetry func retries =
        ⟨false, List.range retries, List.replicate retries 1000⟩) ∧
    (k < retries → (∀ i, i < k → func i = false) → func k = true →
      executeWithRetry func retries =
        ⟨true, List.range (k + 1), List.replicate k 1000⟩) := by
  constructor
  · intro h
    rw [executeWithRetry, executeWithRetryGo_all_fail func retries 0
      (fun i _ h2 => h i (by omega)), List.range_eq_range']
  · intro hk hfail hsucc
    rw [executeWithRetry, executeWithRetryGo_succeeds func retries 0 k hk
      (fun i _ h2 => hfail i (by omega)) (by simpa using hsucc), List.range_eq_range']

/-- Witness for C2 at retries 3: the action failing on attempts 0 and 1 and
succeeding on attempt 2 is invoked three times with one second of delay after
each of the two failures, and an always failing action is invoked three times
and reported failed. -/
theorem executeWithRetry_attempt_bound_witness :
    executeWithRetry (fun i => decide (2 ≤ i)) 3 = ⟨true, [0, 1, 2], [1000, 1000]⟩ ∧
    executeWithRetry (fun _ => false) 3 = ⟨false, [0, 1, 2], [1000, 1000, 1000]⟩ := by
  constructor
  · rw [(executeWithRetry_attempt_bound (fun i => decide (2 ≤ i)) 3 2).2
      (by decide) (by decide) (by decide)]
    rfl
  · rw [(executeWithRetry_attempt_bound (fun _ => false) 3 0).1 (by decide)]
    rfl

/-! ## FeedScroller

scrollToEnd (scraper.mjs): after waiting for the feed to mount, the method
measures lastHeight and runs up to 50 scroll iterations. Each iteration
scrolls, waits for the feed height to exceed lastHeight (a wait that, when it
times out, throws and is caught by the surrounding try, ending the method
with the error log), checks for a visible end-of-list marker, measures
newHeight, and when newHeight equals lastHeight re-measures once after a
short wait; if that finalCheck still equals lastHeight the method returns
with the no-more-results log. Otherwise lastHeight becomes newHeight and
scrollAttempts increments. The page is modelled by one observation per
iteration. -/

structure ScrollIterObs where
  growthObserved : Bool
  endOfList : Bool
  newHeight : Nat
  finalCheck : Nat
deriving Repr, DecidableEq

inductive ScrollOutcome where
  | reachedEnd
  | noMoreResults
  | maxAttemptsHit
  | errored
deriving Repr, DecidableEq

def scrollMaxAttempts : Nat := 50

/-- The while loop of scrollToEnd. The fuel argument equals
scrollMaxAttempts minus scrollAttempts, so fuel zero is the loop condition
scrollAttempts < maxAttempts turning false. The returned Nat is the value of
scrollAttempts at the point the method returns. -/
def scrollLoop (iter : Nat → ScrollIterObs) : Nat → Nat → Nat → ScrollOutcome × Nat
  | 0, _, scrollAttempts => (.maxAttemptsHit, scrollAttempts)
  | fuel + 1, lastHeight, scrollAttempts =>
    if (iter scrollAttempts).growthObserved = false then (.errored, scrollAttempts)
    else if (iter scrollAttempts).endOfList then (.reachedEnd, scrollAttempts)
    else if (iter scrollAttempts).newHeight = lastHeight then
      if (iter scrollAttempts).finalCheck = lastHeight then (.noMoreResults, scrollAttempts)
      else scrollLoop iter fuel (iter scrollAttempts).newHeight (scrollAttempts + 1)
    else scrollLoop iter fuel (iter scrollAttempts).newHeight (scrollAttempts + 1)

structure ScrollEnv where
  initHeight : Nat
  iter : Nat → ScrollIterObs

def scrollToEnd (env : ScrollEnv) : ScrollOutcome × Nat :=
  scrollLoop env.iter scrollMaxAttempts env.initHeight 0

/-- The value of lastHeight at the start of iteration a: the initial
measurement for a = 0, and the previous iteration's newHeight after that. -/
def heightBefore (env : ScrollEnv) : Nat → Nat
  | 0 => env.initHeight
  | a + 1 => (env.iter a).newHeight

theorem scrollLoop_stabilizes (env : ScrollEnv) (N : Nat)
    (hrun : ∀ a, a < N → (env.iter a).growthObserved = true ∧
      (env.iter a).endOfList = false ∧
      ¬((env.iter a).newHeight = heightBefore env a ∧
        (env.iter a).finalCheck = heightBefore env a))
    (hgrow : (env.iter N).growthObserved = true)
    (hend : (env.iter N).endOfList = false)
    (hstable : (env.iter N).newHeight = heightBefore env N)
    (hfinal : (env.iter N).finalCheck = heightBefore env N) :
    ∀ fuel a, a ≤ N → N < a + fuel →
      scrollLoop env.iter fuel (heightBefore env a) a = (.noMoreResults, N) := by
  intro fuel
  induction fuel with
  | zero => omega
  | succ fuel ih =>
    intro a ha hlt
    rcases Nat.eq_or_lt_of_le ha with rfl | haN
    · rw [scrollLoop, if_neg (by rw [hgrow]; simp), if_neg (by rw [hend]; simp),
        if_pos hstable, if_pos hfinal]
    · obtain ⟨hg, he, hns⟩ := hrun a haN
      have hnext : (env.iter a).newHeight = heightBefore env (a + 1) := rfl
      rw [scrollLoop, if_neg (by rw [hg]; simp), if_neg (by rw [he]; simp)]
      by_cases h1 : (env.iter a).newHeight = heightBefore env a
      · rw [if_pos h1, if_neg (fun h2 => hns ⟨h1, h2⟩), hnext]
        exact ih (a + 1) haN (by omega)
      · rw [if_neg h1, hnext]
        exact ih (a + 1) haN (by omega)

/-- C3: when the feed height sequence stabilizes at iteration N (the growth
wait resolved, no end-of-list marker, newHeight equals the running lastHeight
and the delayed finalCheck re-measurement agrees) and all earlier iterations
neither stopped nor raised, scrollToEnd returns with the no-more-results
outcome at that same iteration N, never raising and never reaching the
50-iteration maximum. -/
theorem scrollToEnd_terminates_on_stable_height (env : ScrollEnv) (N : Nat)
    (hN : N < scrollMaxAttempts)
    (hrun : ∀ a, a < N → (env.iter a).growthObserved = true ∧
      (env.iter a).endOfList = false ∧
      ¬((env.iter a).newHeight = heightBefore env a ∧
        (env.iter a).finalCheck = heightBefore env a))
    (hgrow : (env.iter N).growthObserved = true)
    (hend : (env.iter N).endOfList = false)
    (hstable : (env.iter N).newHeight = heightBefore env N)
    (hfinal : (env.iter N).finalCheck = heightBefore env N) :
    scrollToEnd env = (.noMoreResults, N) := by
  have h := scrollLoop_stabilizes env N hrun hgrow hend hstable hfinal
    scrollMaxAttempts 0 (Nat.zero_le N) (by omega)
  rw [scrollToEnd]
  exact h

/-- Witness for C3: a feed starting at height 10 that grows to 20 in the
first iteration and stays at 20 (with an agreeing delayed re-measurement) in
the second makes scrollToEnd return no-more-results at iteration 1. -/
theorem scrollToEnd_terminates_on_stable_height_witness :
    scrollToEnd ⟨10, fun a => if a = 0 then ⟨true, false, 20, 15⟩ else ⟨true, false, 20, 20⟩⟩ =
      (.noMoreResults, 1) :=
  scrollToEnd_terminates_on_stable_height
    ⟨10, fun a => if a = 0 then ⟨true, false, 20, 15⟩ else ⟨true, false, 20, 20⟩⟩ 1
    (by decide) (by decide) (by decide) (by decide) (by decide) (by decide)

/-! ## Per-item scrape loop

scrapeRestaurants (scraper.mjs): for each feed link, a try block runs the
scroll-into-view retry, the click-and-wait retry, the extraction (pushing the
merged record when it is non-null) and the close retry. Each environment
below fixes, for one item, the per-attempt outcomes of the three retried
actions, the extraction result (none models a null restaurantInfo) and the
placeId.

The three failure branches of the source read the identifiers
scrollingMaxRetries, restaurantClickingMaxRetries and closingMaxRetries
inside a template literal; none of these identifiers is declared anywhere in
the file, so in JS evaluating the template literal throws a ReferenceError
before the console.error call and before the `continue` statement run. The
throw is caught by the per-item catch, which logs and continues with the
next item; the branches are therefore modelled as raising that
ReferenceError. -/

structure RestaurantInfo where
  name : String
  phone : String
  website : String
  address : String
deriving Repr, DecidableEq

/-- The record `{ ...restaurantInfo, placeId }` pushed onto restaurantsData. -/
def mkMergedRecord (info : RestaurantInfo) (placeId : String) : Restaurant :=
  ⟨info.name, info.phone, info.website, info.address, placeId⟩

inductive JsError where
  | referenceError (name : String)
  | typeError (msg : String)
deriving Repr, DecidableEq

structure ItemEnv where
  scrollAction : Nat → Bool
  clickAction : Nat → Bool
  closeAction : Nat → Bool
  extractResult : Option RestaurantInfo
  placeId : String

/-- What one iteration of the for loop did: the records it pushed onto
restaurantsData (before any throw), whether the closing retry was ever
entered, and the error the per-item catch caught (none when the try block
ran to its end). -/
structure ItemResult where
  pushed : List Restaurant
  closeAttempted : Bool
  thrown : Option JsError
deriving Repr, DecidableEq

/-- The try block of one iteration of the for loop of scrapeRestaurants
(scraper.mjs), with the three executeWithRetry calls at their default of 3
retries. -/
def processItem (env : ItemEnv) : ItemResult :=
  if (executeWithRetry env.scrollAction).success = false then
    ⟨[], false, some (.referenceError "scrollingMaxRetries")⟩
  else if (executeWithRetry env.clickAction).success = false then
    ⟨[], false, some (.referenceError "restaurantClickingMaxRetries")⟩
  else
    let pushed := match env.extractResult with
      | some info => [mkMergedRecord info env.placeId]
      | none => []
    if (executeWithRetry env.closeAction).success = false then
      ⟨pushed, true, some (.referenceError "closingMaxRetries")⟩
    else
      ⟨pushed, true, none⟩

/-- The for loop of scrapeRestaurants: every iteration's throw is caught by
the per-item catch, so each iteration contributes exactly its pushed records
to restaurantsData and the loop always advances to the next item. -/
def scrapeRestaurants (items : List ItemEnv) : List Restaurant :=
  items.foldl (fun acc env => acc ++ (processItem env).pushed) []

theorem scrapeRestaurants_foldl (items : List ItemEnv) (acc : List Restaurant) :
    items.foldl (fun acc env => acc ++ (processItem env).pushed) acc =
      acc ++ scrapeRestaurants items := by
  induction items generalizing acc with
  | nil => simp [scrapeRestaurants]
  | cons env rest ih =>
    rw [scrapeRestaurants, List.foldl_cons, List.foldl_cons, ih, ih ([] ++ _)]
    simp

theorem scrapeRestaurants_append (l1 l2 : List ItemEnv) :
    scrapeRestaurants (l1 ++ l2) = scrapeRestaurants l1 ++ scrapeRestaurants l2 := by
  rw [scrapeRestaurants, List.foldl_append, scrapeRestaurants_foldl,
    scrapeRestaurants_foldl, List.nil_append]

theorem scrapeRestaurants_cons (env : ItemEnv) (rest : List ItemEnv) :
    scrapeRestaurants (env :: rest) =
      (processItem env).pushed ++ scrapeRestaurants rest := by
  rw [scrapeRestaurants, List.foldl_cons, scrapeRestaurants_foldl, List.nil_append]

/-- C4: when the click-and-wait action of an item fails on all three retry
attempts, the iteration pushes no record for it, never enters the closing
retry, and the dataset of the whole loop is exactly the one produced by the
other items, the loop having proceeded past the failed item. -/
theorem scrapeRestaurants_skips_unopened_item (env : ItemEnv)
    (hclick : ∀ i, i < 3 → env.clickAction i = false) :
    (processItem env).pushed = [] ∧
    (processItem env).closeAttempted = false ∧
    ∀ pre post, scrapeRestaurants (pre ++ env :: post) =
      scrapeRestaurants pre ++ scrapeRestaurants post := by
  have hfail : (executeWithRetry env.clickAction).success = false := by
    rw [executeWithRetry,
      executeWithRetryGo_all_fail env.clickAction 3 0 (fun i _ h2 => hclick i (by omega))]
  have hmain : (processItem env).pushed = [] ∧ (processItem env).closeAttempted = false := by
    rw [processItem]
    by_cases hscroll : (executeWithRetry env.scrollAction).success = false
    · rw [if_pos hscroll]
      exact ⟨rfl, rfl⟩
    · rw [if_neg hscroll, if_pos hfail]
      exact ⟨rfl, rfl⟩
  refine ⟨hmain.1, hmain.2, fun pre post => ?_⟩
  rw [scrapeRestaurants_append, scrapeRestaurants_cons, hmain.1, List.nil_append]

/-- Witness for C4: an item whose click action fails every attempt while
scrolling, extraction and closing would succeed yields no record, no close
attempt, and leaves the surrounding dataset as if it were absent. -/
theorem scrapeRestaurants_skips_unopened_item_witness :
    (processItem ⟨fun _ => true, fun _ => false, fun _ => true,
      some ⟨"n", "p", "w", "a"⟩, "pid"⟩).pushed = [] ∧
    (processItem ⟨fun _ => true, fun _ => false, fun _ => true,
      some ⟨"n", "p", "w", "a"⟩, "pid"⟩).closeAttempted = false ∧
    ∀ pre post, scrapeRestaurants (pre ++ ⟨fun _ => true, fun _ => false, fun _ => true,
      some ⟨"n", "p", "w", "a"⟩, "pid"⟩ :: post) =
      scrapeRestaurants pre ++ scrapeRestaurants post :=
  scrapeRestaurants_skips_unopened_item
    ⟨fun _ => true, fun _ => false, fun _ => true, some ⟨"n", "p", "w", "a"⟩, "pid"⟩
    (fun _ _ => rfl)

/-- C5: when an item's panel opens (scroll and click retries succeed) and its
fields are extracted, a failure of the close action on all three retry
attempts leaves the already pushed record in the dataset unaltered, and the
loop proceeds to the next items, whose records follow it. -/
theorem scrapeRestaurants_keeps_record_on_close_failure (env : ItemEnv)
    (info : RestaurantInfo)
    (hscroll : (executeWithRetry env.scrollAction).success = true)
    (hclick : (executeWithRetry env.clickAction).success = true)
    (hinfo : env.extractResult = some info)
    (hclose : ∀ i, i < 3 → env.closeAction i = false) :
    (processItem env).pushed = [mkMergedRecord info env.placeId] ∧
    (processItem env).thrown = some (.referenceError "closingMaxRetries") ∧
    ∀ pre post, scrapeRestaurants (pre ++ env :: post) =
      scrapeRestaurants pre ++ mkMergedRecord info env.placeId :: scrapeRestaurants post := by
  have hfail : (executeWithRetry env.closeAction).success = false := by
    rw [executeWithRetry,
      executeWithRetryGo_all_fail env.closeAction 3 0 (fun i _ h2 => hclose i (by omega))]
  have hmain : processItem env =
      ⟨[mkMergedRecord info env.placeId], true, some (.referenceError "closingMaxRetries")⟩ := by
    rw [processItem, if_neg (by rw [hscroll]; simp), if_neg (by rw [hclick]; simp),
      hinfo, if_pos hfail]
  refine ⟨by rw [hmain], by rw [hmain], fun pre post => ?_⟩
  rw [scrapeRestaurants_append, scrapeRestaurants_cons, hmain]
  rfl

/-- Witness for C5: an item that opens and extracts but whose close action
fails every attempt keeps its record in the dataset and the loop continues. -/
theorem scrapeRestaurants_keeps_record_on_close_failure_witness :
    (processItem ⟨fun _ => true, fun _ => true, fun _ => false,
      some ⟨"n", "p", "w", "a"⟩, "pid"⟩).pushed =
      [mkMergedRecord ⟨"n", "p", "w", "a"⟩ "pid"] ∧
    (processItem ⟨fun _ => true, fun _ => true, fun _ => false,
      some ⟨"n", "p", "w", "a"⟩, "pid"⟩).thrown =
      some (.referenceError "closingMaxRetries") ∧
    ∀ pre post, scrapeRestaurants (pre ++ ⟨fun _ => true, fun _ => true, fun _ => false,
      some ⟨"n", "p", "w", "a"⟩, "pid"⟩ :: post) =
      scrapeRestaurants pre ++
        mkMergedRecord ⟨"n", "p", "w", "a"⟩ "pid" :: scrapeRestaurants post :=
  scrapeRestaurants_keeps_record_on_close_failure
    ⟨fun _ => true, fun _ => true, fun _ => false, some ⟨"n", "p", "w", "a"⟩, "pid"⟩
    ⟨"n", "p", "w", "a"⟩ (by rfl) (by rfl) rfl (fun _ _ => rfl)

/-- C10: each exhausted retry budget in an iteration of scrapeRestaurants
ends the iteration with a ReferenceError on the undeclared identifier named
in its failure log (scrollingMaxRetries, restaurantClickingMaxRetries or
closingMaxRetries) rather than with the intended log line; the per-item
catch absorbs the error, so the loop still advances past the item and every
record pushed before the failure stays in the dataset. -/
theorem scrapeRestaurants_undeclared_retry_identifiers (env : ItemEnv) :
    ((executeWithRetry env.scrollAction).success = false →
      (processItem env).thrown = some (.referenceError "scrollingMaxRetries")) ∧
    ((executeWithRetry env.scrollAction).success = true →
      (executeWithRetry env.clickAction).success = false →
      (processItem env).thrown = some (.referenceError "restaurantClickingMaxRetries")) ∧
    ((executeWithRetry env.scrollAction).success = true →
      (executeWithRetry env.clickAction).success = true →
      (executeWithRetry env.closeAction).success = false →
      (processItem env).thrown = some (.referenceError "closingMaxRetries")) ∧
    (∀ pre post, scrapeRestaurants (pre ++ env :: post) =
      scrapeRestaurants pre ++ (processItem env).pushed ++ scrapeRestaurants post) := by
  refine ⟨fun h1 => ?_, fun h1 h2 => ?_, fun h1 h2 h3 => ?_, fun pre post => ?_⟩
  · rw [processItem, if_pos h1]
  · rw [processItem, if_neg (by rw [h1]; simp), if_pos h2]
  · rw [processItem, if_neg (by rw [h1]; simp), if_neg (by rw [h2]; simp), if_pos h3]
  · rw [scrapeRestaurants_append, scrapeRestaurants_cons, List.append_assoc]

/-! ## CSV writing

Both saveToCSV (scraper.mjs) and the merge step of main (batchScraper.mjs)
build the artifact text as the literal
`[Object.keys(d[0]).flatten(','), ...d.map(item => Object.values(item).flatten(','))].flatten('\n')`.
Object.keys and Object.values of a merged record follow the JS object key
insertion order name, phone, website, address, placeId. On an empty list,
`d[0]` is undefined and `Object.keys(undefined)` throws
TypeError: Cannot convert undefined or null to object. -/

def objectKeys (_ : Restaurant) : List String :=
  ["name", "phone", "website", "address", "placeId"]

def objectValues (r : Restaurant) : List String :=
  [r.name, r.phone, r.website, r.address, r.placeId]

/-- The csvContent expression shared by saveToCSV and main: header line from
the first record, then one comma-joined line per record. The empty case is
the TypeError thrown by Object.keys of the undefined first element. -/
def buildCsvContent (data : List Restaurant) : Except JsError String :=
  match data with
  | [] => throw (.typeError "Cannot convert undefined or null to object")
  | first :: _ =>
    pure (String.intercalate "\n"
      (String.intercalate "," (objectKeys first) ::
        data.map fun item => String.intercalate "," (objectValues item)))

/-- saveToCSV (scraper.mjs): `if (!data || data.length === 0) return;` guards
the build, so a null (none) or empty dataset writes nothing; otherwise the
file content written is returned. -/
def saveToCSV (data : Option (List Restaurant)) : Option String :=
  match data with
  | none => none
  | some [] => none
  | some (first :: rest) =>
    some (String.intercalate "\n"
      (String.intercalate "," (objectKeys first) ::
        (first :: rest).map fun item => String.intercalate "," (objectValues item)))

/-- The merge-and-write tail of main (batchScraper.mjs): deduplicate the
concatenated records, then build csvContent from the deduplicated list with
no emptiness guard and write it to all_restaurants.csv. The result is the
path and content passed to fs.writeFile, or the error thrown before any
write. -/
def mainMergeWrite (allRestaurants : List Restaurant) : Except JsError (String × String) :=
  (buildCsvContent (getUniqueRestaurants allRestaurants)).map
    fun content => ("all_restaurants.csv", content)

/-- Counterexample to C6: with an empty combined record set the merge step of
main does not skip the combined artifact; it throws the TypeError raised by
Object.keys of the undefined first record (there is no emptiness guard in
main), so the claimed skip-without-raising behaviour is false. -/
theorem mainMergeWrite_empty_throws :
    mainMergeWrite [] =
      Except.error (.typeError "Cannot convert undefined or null to object") := rfl

/-- C6 as amended: on an empty combined record set the merge step of main
raises a TypeError while deriving the header from the first record and hands
nothing to fs.writeFile, and on any record list it only ever writes after the
deduplicated set turned out nonempty; saveToCSV given a null or an empty
dataset returns without writing any file. -/
theorem mainMergeWrite_and_saveToCSV_empty (allRestaurants : List Restaurant) :
    mainMergeWrite [] =
      Except.error (.typeError "Cannot convert undefined or null to object") ∧
    (∀ out, mainMergeWrite allRestaurants = Except.ok out →
      getUniqueRestaurants allRestaurants ≠ []) ∧
    saveToCSV none = none ∧
    saveToCSV (some []) = none := by
  refine ⟨rfl, ?_, rfl, rfl⟩
  intro out hout hempty
  rw [mainMergeWrite, hempty] at hout
  cases hout

/-! ## BatchOrchestrator

scrapeWithConcurrency (batchScraper.mjs): the first for loop pushes
`queries.slice(i, i + concurrentLimit)` for i = 0, concurrentLimit, ... while
i < queries.length; with concurrentLimit zero the index never advances and
the loop never terminates, which the model renders as none (the fuel
queries.length + 1 covers every terminating run, since a positive limit
advances i at least once per iteration). The second for loop awaits each
chunk in order and sleeps 5000 ms after a chunk exactly when it is not the
last one; it is modelled as the list of its events in order. -/

structure Query where
  name : String
deriving Repr, DecidableEq

/-- The chunk-splitting for loop of scrapeWithConcurrency:
`queries.slice(i, i + concurrentLimit)` is take concurrentLimit of drop i. -/
def chunksLoop (queries : List Query) (concurrentLimit : Nat) :
    Nat → Nat → Option (List (List Query))
  | 0, _ => none
  | fuel + 1, i =>
    if i < queries.length then
      ((queries.drop i).take concurrentLimit :: ·) <$>
        chunksLoop queries concurrentLimit fuel (i + concurrentLimit)
    else
      some []

def makeChunks (queries : List Query) (concurrentLimit : Nat) :
    Option (List (List Query)) :=
  chunksLoop queries concurrentLimit (queries.length + 1) 0

inductive BatchEvent where
  | processChunk (chunk : List Query)
  | cooldown (ms : Nat)
deriving Repr, DecidableEq

/-- The chunk-processing for loop of scrapeWithConcurrency as its event
trace: at index i the chunk is launched and awaited as one concurrent group,
then, only when i < chunks.length - 1, the 5000 ms inter-chunk delay runs. -/
def runChunksLoop (chunks : List (List Query)) : Nat → Nat → List BatchEvent
  | 0, _ => []
  | fuel + 1, i =>
    if i < chunks.length then
      BatchEvent.processChunk (chunks.getD i []) ::
        ((if i < chunks.length - 1 then [BatchEvent.cooldown 5000] else []) ++
          runChunksLoop chunks fuel (i + 1))
    else []

def runChunks (chunks : List (List Query)) : List BatchEvent :=
  runChunksLoop chunks (chunks.length + 1) 0

/-- scrapeWithConcurrency (batchScraper.mjs) with its default concurrency
limit of 10: the chunk partition followed by the sequential chunk trace. -/
def scrapeWithConcurrency (queries : List Query) (concurrentLimit : Nat := 10) :
    Option (List BatchEvent) :=
  (makeChunks queries concurrentLimit).map runChunks

theorem chunksLoop_spec (queries : List Query) (limit : Nat) (hpos : 0 < limit) :
    ∀ fuel i, queries.length - i < fuel →
      ∃ cs, chunksLoop queries limit fuel i = some cs ∧
        cs.flatten = queries.drop i ∧
        (∀ c ∈ cs.dropLast, c.length = limit) ∧
        (∀ c ∈ cs, c.length ≤ limit ∧ c ≠ []) := by
  intro fuel
  induction fuel with
  | zero => omega
  | succ fuel ih =>
    intro i hfuel
    by_cases hi : i < queries.length
    · obtain ⟨cs, hcs, hjoin, hsize, hall⟩ := ih (i + limit) (by omega)
      refine ⟨(queries.drop i).take limit :: cs, ?_, ?_, ?_, ?_⟩
      · rw [chunksLoop, if_pos hi, hcs]
        rfl
      · rw [List.flatten_cons, hjoin, ← List.drop_drop, List.take_append_drop]
      · cases cs with
        | nil => simp
        | cons c2 cs2 =>
          have hc2 : c2 ≠ [] := (hall c2 (List.mem_cons_self _ _)).2
          have hjoin2 : queries.drop (i + limit) ≠ [] := by
            rw [← hjoin, List.flatten_cons]
            intro hcontra
            exact hc2 (List.append_eq_nil.mp hcontra).1
          have hlt : i + limit < queries.length := by
            by_contra hge
            exact hjoin2 (List.drop_eq_nil_of_le (by omega))
          intro c hc
          rw [List.dropLast_cons_of_ne_nil (List.cons_ne_nil c2 cs2)] at hc
          rcases List.mem_cons.mp hc with rfl | hc
          · rw [List.length_take, List.length_drop]
            omega
          · exact hsize c hc
      · intro c hc
        rcases List.mem_cons.mp hc with rfl | hc
        · constructor
          · rw [List.length_take]
            omega
          · rw [ne_eq, List.take_eq_nil_iff]
            push_neg
            refine ⟨by omega, ?_⟩
            rw [ne_eq, List.drop_eq_nil_iff]
            omega
        · exact hall c hc
    · refine ⟨[], ?_, ?_, by simp, by simp⟩
      · rw [chunksLoop, if_neg hi]
      · rw [List.flatten_nil, List.drop_eq_nil_of_le (by omega)]

theorem runChunksLoop_past (chunks : List (List Query)) (fuel i : Nat)
    (h : chunks.length ≤ i) : runChunksLoop chunks fuel i = [] := by
  cases fuel with
  | zero => rfl
  | succ fuel => rw [runChunksLoop, if_neg (by omega)]

theorem runChunksLoop_eq (chunks : List (List Query)) :
    ∀ fuel i, chunks.length - i < fuel →
      runChunksLoop chunks fuel i =
        List.intersperse (BatchEvent.cooldown 5000)
          ((chunks.drop i).map BatchEvent.processChunk) := by
  intro fuel
  induction fuel with
  | zero => omega
  | succ fuel ih =>
    intro i hfuel
    by_cases hi : i < chunks.length
    · rw [runChunksLoop, if_pos hi, List.drop_eq_getElem_cons hi,
        List.getD_eq_getElem chunks [] hi]
      by_cases hlast : i < chunks.length - 1
      · have h2 : chunks.drop (i + 1) ≠ [] := by
          rw [ne_eq, List.drop_eq_nil_iff]
          omega
        obtain ⟨c2, rest, hrest⟩ := List.exists_cons_of_ne_nil h2
        rw [if_pos hlast, ih (i + 1) (by omega), hrest]
        simp [List.intersperse]
      · have hnil : chunks.drop (i + 1) = [] := List.drop_eq_nil_of_le (by omega)
        rw [if_neg hlast, hnil, runChunksLoop_past chunks fuel (i + 1) (by omega)]
        simp [List.intersperse]
    · rw [runChunksLoop, if_neg hi, List.drop_eq_nil_of_le (by omega)]
      simp [List.intersperse]

/-- Counterexample to C8: the claim quantifies over every concurrency limit,
but with limit 0 the index of the chunk-splitting loop never advances, so
scrapeWithConcurrency never terminates on a nonempty query list (modelled as
none) and produces no partition at all. -/
theorem scrapeWithConcurrency_zero_limit_diverges :
    scrapeWithConcurrency [Query.mk "Keiraville"] 0 = none := rfl

/-- C8 as amended: for every query list and every positive concurrency
limit, the partition exists, its concatenation is the original list in
order, every chunk but possibly the last has exactly the limit size, and the
event trace processes the chunks strictly sequentially in order with the
fixed 5000 ms cooldown exactly between consecutive chunks and never after
the last one. -/
theorem scrapeWithConcurrency_chunking (queries : List Query) (concurrentLimit : Nat)
    (hpos : 0 < concurrentLimit) :
    ∃ chunks, makeChunks queries concurrentLimit = some chunks ∧
      chunks.flatten = queries ∧
      (∀ c ∈ chunks.dropLast, c.length = concurrentLimit) ∧
      (∀ c ∈ chunks, c.length ≤ concurrentLimit ∧ c ≠ []) ∧
      scrapeWithConcurrency queries concurrentLimit =
        some (List.intersperse (BatchEvent.cooldown 5000)
          (chunks.map BatchEvent.processChunk)) := by
  obtain ⟨chunks, hchunks, hjoin, hsize, hall⟩ :=
    chunksLoop_spec queries concurrentLimit hpos (queries.length + 1) 0 (by omega)
  rw [List.drop_zero] at hjoin
  refine ⟨chunks, hchunks, hjoin, hsize, hall, ?_⟩
  have htrace : runChunks chunks =
      List.intersperse (BatchEvent.cooldown 5000) (chunks.map BatchEvent.processChunk) := by
    rw [runChunks, runChunksLoop_eq chunks (chunks.length + 1) 0 (by omega), List.drop_zero]
  rw [scrapeWithConcurrency, makeChunks, hchunks, Option.map_some', htrace]

/-- Witness for C8: five queries with limit 2 split into chunks of sizes
2, 2, 1 concatenating to the input, and the trace alternates chunk
processing with a single 5000 ms cooldown between consecutive chunks. -/
theorem scrapeWithConcurrency_chunking_witness :
    ∃ chunks, makeChunks [Query.mk "a", Query.mk "b", Query.mk "c", Query.mk "d",
        Query.mk "e"] 2 = some chunks ∧
      chunks.flatten = [Query.mk "a", Query.mk "b", Query.mk "c", Query.mk "d",
        Query.mk "e"] ∧
      (∀ c ∈ chunks.dropLast, c.length = 2) ∧
      (∀ c ∈ chunks, c.length ≤ 2 ∧ c ≠ []) ∧
      scrapeWithConcurrency [Query.mk "a", Query.mk "b", Query.mk "c", Query.mk "d",
          Query.mk "e"] 2 =
        some (List.intersperse (BatchEvent.cooldown 5000)
          (chunks.map BatchEvent.processChunk)) :=
  scrapeWithConcurrency_chunking
    [Query.mk "a", Query.mk "b", Query.mk "c", Query.mk "d", Query.mk "e"] 2
    (by decide)
